import Mathlib

/-!
Verification of the llm-council backend against its specification.

This file shallowly embeds the pure computational core of the repository:

* `src/backend/council.py` — ranking parser (`parse_ranking_from_text`),
  aggregation (`calculate_aggregate_rankings`), anonymization labels
  (`stage2_collect_rankings`), and the orchestration skeleton
  (`run_full_council`).
* `src/backend/storage.py` — the conversation message list and its mutators
  (`add_user_message`, `mark_last_user_message_status`,
  `remove_pending_user_messages`, `get_last_user_message`).
* `src/backend/main.py` — the retry guard (`retry_last_pending`), the
  prior-context computation of `send_message`, and the status effects of the
  send / stream-send / retry / status-mark / pending-remove handlers.

Modelling conventions: Python strings are Lean `String` / `List Char`;
Python dicts that are used in insertion order are association lists;
fallible LLM calls are `Option String` parameters (none = failure);
wall-clock timestamps are `String` parameters.  Python regular expression
scanning (`re.findall`) is embedded as an explicit left-to-right,
non-overlapping scanner; the two patterns used by the source
(`\d+\.\s*Response [A-Z]` and `Response [A-Z]`) contain no nontrivial
backtracking (the character after a maximal digit/whitespace run can never
re-enter the run), so the scanner is deterministic.  `\d` and `\s` are
modelled on their ASCII meaning (the source never feeds non-ASCII digits
or exotic whitespace into the ranking templates).  Python `round(x, 2)` is
modelled as exact half-to-even rounding to hundredths, with the rounded
average stored as an integer count of hundredths
(`average_rank_x100 = 150` means `average_rank = 1.50`).
-/

/-- ASCII uppercase check, the `[A-Z]` character class of the source regexes. -/
def isUpperAZ (c : Char) : Bool := 'A' ≤ c && c ≤ 'Z'

/-- ASCII digit check, the `\d` character class (ASCII fragment). -/
def isDigit09 (c : Char) : Bool := '0' ≤ c && c ≤ '9'

/-- ASCII whitespace, the `\s` character class (ASCII fragment):
space, tab, newline, carriage return, vertical tab, form feed. -/
def isPySpace (c : Char) : Bool :=
  c = ' ' || c = '\t' || c = '\n' || c = '\r' || c = Char.ofNat 11 || c = Char.ofNat 12

/-- `listStartsWith pat t` — does `t` begin with `pat`? -/
def listStartsWith : List Char → List Char → Bool
  | [], _ => true
  | _ :: _, [] => false
  | p :: ps, t :: ts => p = t && listStartsWith ps ts

/-- Index of the first occurrence of (nonempty) `pat` in `t`;
models Python's `str.find` / the scan done by `in` and `split`. -/
def findOcc (pat : List Char) : List Char → Option Nat
  | [] => none
  | t@(_ :: rest) =>
      if listStartsWith pat t then some 0 else (findOcc pat rest).map (· + 1)

/-- Index of the last occurrence of (nonempty) `pat` in `t`. -/
def findLastOcc (pat : List Char) : List Char → Option Nat
  | [] => none
  | t@(_ :: rest) =>
      match findLastOcc pat rest with
      | some j => some (j + 1)
      | none => if listStartsWith pat t then some 0 else none

/-- Python `str.strip()` (ASCII-whitespace fragment). -/
def stripWS (s : String) : String :=
  String.mk (((s.toList.dropWhile isPySpace).reverse.dropWhile isPySpace).reverse)

/-- Python `"\n\n".join(l)`. -/
def joinNN (l : List String) : String := String.intercalate "\n\n" l

/-- The literal `"Response "` (9 characters) that both source regexes contain. -/
def respTok : List Char := "Response ".toList

/-- The literal marker `"FINAL RANKING:"` from `council.py`. -/
def markerL : List Char := "FINAL RANKING:".toList

/-- The string `"Response X"` for an uppercase letter `X`. -/
def mkRespLabel (c : Char) : String := String.mk (respTok ++ [c])

/-- Match of the regex `Response [A-Z]` at the start of `t`; on success
returns the uppercase letter.  The match always consumes 10 characters. -/
def matchRespLen (t : List Char) : Option Char :=
  if listStartsWith respTok t then
    match t.drop 9 with
    | c :: _ => if isUpperAZ c then some c else none
    | [] => none
  else none

/-- Length of the maximal digit run at the head of the text (greedy `\d+`). -/
def digitRunLen : List Char → Nat
  | [] => 0
  | c :: cs => if isDigit09 c then digitRunLen cs + 1 else 0

/-- Length of the maximal whitespace run at the head of the text (greedy `\s*`). -/
def spaceRunLen : List Char → Nat
  | [] => 0
  | c :: cs => if isPySpace c then spaceRunLen cs + 1 else 0

/-- Match of the regex `\d+\.\s*Response [A-Z]` at the start of `t`.
Returns the uppercase letter together with the total number of characters
consumed.  The source extracts the `Response X` token from the full match
with `re.search(r'Response [A-Z]', m)`; inside a match of this shape the
only occurrence of `Response ` is the trailing literal (the digit /
whitespace runs cannot contain the letter `R`), so the extraction yields
exactly the trailing `"Response X"`. -/
def matchNumberedLen (t : List Char) : Option (Char × Nat) :=
  let k := digitRunLen t
  if k = 0 then none
  else
    match t.drop k with
    | '.' :: rest2 =>
        let s := spaceRunLen rest2
        match matchRespLen (rest2.drop s) with
        | some c => some (c, k + 1 + s + 10)
        | none => none
    | _ => none

/-- Fuel-indexed scanner for `re.findall(r'\d+\.\s*Response [A-Z]', ·)`:
left to right, at each position try to match, on success continue after
the match, on failure advance one character.  Each step consumes at least
one character, so fuel `t.length` suffices for a complete scan. -/
def findallNumberedGo : Nat → List Char → List String
  | 0, _ => []
  | _ + 1, [] => []
  | fuel + 1, t@(_ :: rest) =>
      match matchNumberedLen t with
      | some cn => mkRespLabel cn.1 :: findallNumberedGo fuel (t.drop cn.2)
      | none => findallNumberedGo fuel rest

/-- `re.findall(r'\d+\.\s*Response [A-Z]', t)`, already projected to the
`Response X` tokens (see `matchNumberedLen`). -/
def findallNumbered (t : List Char) : List String := findallNumberedGo t.length t

/-- Fuel-indexed scanner for `re.findall(r'Response [A-Z]', ·)`. -/
def findallRespGo : Nat → List Char → List String
  | 0, _ => []
  | _ + 1, [] => []
  | fuel + 1, t@(_ :: rest) =>
      match matchRespLen t with
      | some c => mkRespLabel c :: findallRespGo fuel (t.drop 10)
      | none => findallRespGo fuel rest

/-- `re.findall(r'Response [A-Z]', t)`. -/
def findallResp (t : List Char) : List String := findallRespGo t.length t

/-- Fuel-indexed Python `str.split(sep)` for nonempty `sep`: repeatedly cut
at the leftmost occurrence.  Each recursive call consumes at least
`sep.length ≥ 1` characters, so fuel `t.length + 1` suffices. -/
def pySplitGo (sep : List Char) : Nat → List Char → List (List Char)
  | 0, t => [t]
  | fuel + 1, t =>
      match findOcc sep t with
      | none => [t]
      | some i => t.take i :: pySplitGo sep fuel (t.drop (i + sep.length))

/-- Python `t.split(sep)` for nonempty `sep`. -/
def pySplit (sep t : List Char) : List (List Char) := pySplitGo sep (t.length + 1) t

/-- `council.py` lines 302-333, `parse_ranking_from_text`: if the marker
`FINAL RANKING:` occurs, split on it and work on `parts[1]` (the segment
between the first occurrence and the next one); inside that segment first
try the numbered-list pattern, else fall back to bare `Response [A-Z]`
matches; if the marker does not occur, scan the whole text. -/
def parse_ranking_from_text (ranking_text : String) : List String :=
  let t := ranking_text.toList
  if (findOcc markerL t).isSome then
    match pySplit markerL t with
    | _ :: ranking_section :: _ =>
        let numbered := findallNumbered ranking_section
        if numbered.isEmpty then findallResp ranking_section else numbered
    | _ => findallResp t
  else findallResp t

/-- The parser as claim C2 describes it: work on the substring after the
LAST occurrence of the marker. -/
def parse_ranking_claimC2 (s : String) : List String :=
  let t := s.toList
  match findLastOcc markerL t with
  | some i =>
      let seg := t.drop (i + markerL.length)
      let numbered := findallNumbered seg
      if numbered.isEmpty then findallResp seg else numbered
  | none => findallResp t

/-- The parser as amended: work on the segment strictly between the FIRST
occurrence of the marker and its next occurrence (or the end of the text),
which is what Python's `split(...)[1]` yields. -/
def parse_ranking_amendedC2 (s : String) : List String :=
  let t := s.toList
  match findOcc markerL t with
  | some i =>
      let after := t.drop (i + markerL.length)
      let seg :=
        match findOcc markerL after with
        | some j => after.take j
        | none => after
      let numbered := findallNumbered seg
      if numbered.isEmpty then findallResp seg else numbered
  | none => findallResp t

/-- Is `s` exactly `"Response "` followed by one uppercase letter? -/
def isRespLabel (s : String) : Bool :=
  decide (s.toList.take 9 = respTok) &&
    (match s.toList.drop 9 with
     | [c] => isUpperAZ c
     | _ => false)

/-- Stage-1 record `{model, response}` (`council.py` lines 62-68). -/
structure PerModelResponse where
  model : String
  response : String
deriving DecidableEq

/-- Stage-2 record `{model, ranking, parsed_ranking}` (`council.py` lines 174-183). -/
structure Stage2Result where
  model : String
  ranking : String
  parsed_ranking : List String
deriving DecidableEq

/-- Stage-3 record `{model, response}` (`council.py` lines 250-268). -/
structure ChairmanAnswer where
  model : String
  response : String
deriving DecidableEq

/-- A row of the aggregate leaderboard (`council.py` lines 367-375).
`average_rank_x100` is the source's `round(avg_rank, 2)` stored in
hundredths: a value of `150` models an `average_rank` of `1.50`. -/
structure AggregateEntry where
  model : String
  average_rank_x100 : Nat
  rankings_count : Nat
deriving DecidableEq

/-- First-match lookup in an association list; models indexing a Python
dict whose keys are unique. -/
def assocLookup : List (String × String) → String → Option String
  | [], _ => none
  | kv :: rest, k => if kv.1 = k then some kv.2 else assocLookup rest k

/-- `model_positions[model_name].append(position)` on a `defaultdict(list)`
represented as an association list in key-insertion order. -/
def addPos : List (String × List Nat) → String → Nat → List (String × List Nat)
  | [], m, p => [(m, [p])]
  | kps :: rest, m, p =>
      if kps.1 = m then (kps.1, kps.2 ++ [p]) :: rest else kps :: addPos rest m p

/-- Read a model's collected position list (empty when absent). -/
def assocFind : List (String × List Nat) → String → List Nat
  | [], _ => []
  | kps :: rest, m => if kps.1 = m then kps.2 else assocFind rest m

/-- `council.py` lines 353-364: for every rater, re-parse its ranking text
and append the 1-based position of every label that the LabelMap knows to
the mapped model's position list. -/
def model_positions (stage2_results : List Stage2Result)
    (label_to_model : List (String × String)) : List (String × List Nat) :=
  stage2_results.foldl
    (fun mps r =>
      (List.enumFrom 1 (parse_ranking_from_text r.ranking)).foldl
        (fun mps2 pl =>
          match assocLookup label_to_model pl.2 with
          | some model_name => addPos mps2 model_name pl.1
          | none => mps2)
        mps)
    []

/-- Half-to-even rounding of the fraction `a / b` (for `b > 0`), the exact
counterpart of Python's banker's `round`. -/
def roundHalfEvenDiv (a b : Nat) : Nat :=
  let q := a / b
  let r := a % b
  if 2 * r < b then q
  else if b < 2 * r then q + 1
  else if q % 2 = 0 then q else q + 1

/-- Stable insertion of `x` after every element `y` with `le y x`. -/
def insertStable {α : Type} (le : α → α → Bool) (x : α) : List α → List α
  | [] => [x]
  | y :: ys => if le y x then y :: insertStable le x ys else x :: y :: ys

/-- Stable sort by the boolean preorder `le`; agrees with Python's stable
`list.sort` for a total preorder key. -/
def stableSortBy {α : Type} (le : α → α → Bool) (l : List α) : List α :=
  l.foldl (fun acc x => insertStable le x acc) []

/-- The single sort key of `council.py` line 378: `x['average_rank']`. -/
def aggLe (a b : AggregateEntry) : Bool :=
  decide (a.average_rank_x100 ≤ b.average_rank_x100)

/-- `council.py` lines 336-380, `calculate_aggregate_rankings`: collect
positions per model, keep models with a nonempty position list, average
and round, and sort (stably) by average rank alone. -/
def calculate_aggregate_rankings (stage2_results : List Stage2Result)
    (label_to_model : List (String × String)) : List AggregateEntry :=
  let mps := model_positions stage2_results label_to_model
  let aggregate := mps.filterMap
    (fun mp =>
      if mp.2.isEmpty then none
      else some ⟨mp.1, roundHalfEvenDiv (100 * mp.2.sum) mp.2.length, mp.2.length⟩)
  stableSortBy aggLe aggregate

/-- Lexicographic (code-point) comparison of character lists, Python's
string ordering. -/
def listLexLe : List Char → List Char → Bool
  | [], _ => true
  | _ :: _, [] => false
  | a :: as, b :: bs => if a < b then true else if b < a then false else listLexLe as bs

/-- The three-key ordering that claim C1 asserts for the aggregator output:
average rank ascending, then rankings count descending, then model ID
ascending (Python lexicographic string order). -/
def claimKeyLe (a b : AggregateEntry) : Prop :=
  a.average_rank_x100 < b.average_rank_x100 ∨
    (a.average_rank_x100 = b.average_rank_x100 ∧
      (b.rankings_count < a.rankings_count ∨
        (a.rankings_count = b.rankings_count ∧
          listLexLe a.model.toList b.model.toList = true)))

/-- The positions a single rater's ranking text contributes to model `m`:
one entry for EVERY occurrence of a label that the LabelMap sends to `m`,
in source order, with 1-based positions. -/
def raterContrib (label_to_model : List (String × String)) (ranking_text : String)
    (m : String) : List Nat :=
  (List.enumFrom 1 (parse_ranking_from_text ranking_text)).filterMap
    (fun pl =>
      match assocLookup label_to_model pl.2 with
      | some m2 => if m2 = m then some pl.1 else none
      | none => none)

/-- `council.py` lines 62-70: keep the models whose query succeeded
(`resp is not None`), pairing each with its content. -/
def stage1_collect_responses (responses : List (String × Option String)) :
    List PerModelResponse :=
  responses.filterMap (fun mr => mr.2.map (fun content => ⟨mr.1, content⟩))

/-- `council.py` lines 89-96: anonymization labels `Response A`,
`Response B`, … (`chr(65 + i)`) zipped with the stage-1 results in
insertion order. -/
def stage2_label_to_model (stage1_results : List PerModelResponse) :
    List (String × String) :=
  ((List.range stage1_results.length).zip stage1_results).map
    (fun ir => ("Response " ++ (Char.ofNat (65 + ir.1)).toString, ir.2.model))

/-- `council.py` lines 171-185 (non-streaming path): each successful rater
yields `{model, ranking, parsed_ranking}`; returns the results together
with the label map. -/
def stage2_collect_rankings (stage1_results : List PerModelResponse)
    (responses : List (String × Option String)) :
    List Stage2Result × List (String × String) :=
  (responses.filterMap
      (fun mr => mr.2.map (fun full_text =>
        ⟨mr.1, full_text, parse_ranking_from_text full_text⟩)),
   stage2_label_to_model stage1_results)

/-- `council.py` lines 248-268: the chairman's answer, or the fallback
placeholder when the chairman query failed. -/
def stage3_synthesize_final (chairman : String) (response : Option String) :
    ChairmanAnswer :=
  match response with
  | none => ⟨chairman, "Error: Unable to generate final synthesis."⟩
  | some content => ⟨chairman, content⟩

/-- `council.py` lines 433-487, `run_full_council`, with the three LLM
round-trips supplied as oracle parameters.  The metadata dict is `none`
for the empty `{}` of the error path and otherwise carries
`(label_to_model, aggregate_rankings)`. -/
def run_full_council (stage1Responses stage2Responses : List (String × Option String))
    (stage3Response : Option String) (chairman : String) :
    List PerModelResponse × List Stage2Result × ChairmanAnswer ×
      Option (List (String × String) × List AggregateEntry) :=
  let stage1_results := stage1_collect_responses stage1Responses
  if stage1_results.isEmpty then
    ([], [], ⟨"error", "All models failed to respond. Please try again."⟩, none)
  else
    let s2 := stage2_collect_rankings stage1_results stage2Responses
    let aggregate_rankings := calculate_aggregate_rankings s2.1 s2.2
    (stage1_results, s2.1, stage3_synthesize_final chairman stage3Response,
      some (s2.2, aggregate_rankings))

/-- The 26 labels `Response A` … `Response Z` (the full label alphabet). -/
def alphabetLabels : List String :=
  "ABCDEFGHIJKLMNOPQRSTUVWXYZ".toList.map (fun c => "Response " ++ c.toString)

/-- A stored conversation message.  User messages carry content, status,
creation time, and the optional `status_updated_at` stamp (absent until
the first status mark).  Assistant messages are reduced to the fields the
claims read: the optional `stage3.response` text and the optional
`stage3.metadata.summarized_count` marking summary messages. -/
inductive Msg where
  | user (content status createdAt : String) (statusUpdatedAt : Option String)
  | assistant (stage3Response : Option String) (summarizedCount : Option Nat)
deriving DecidableEq

/-- `storage.py` lines 141-151, `add_user_message`: append a `pending`
user message. -/
def add_user_message (msgs : List Msg) (content now : String) : List Msg :=
  msgs ++ [Msg.user content "pending" now none]

/-- Mark the FIRST user message of the list: sets `status` and stamps
`status_updated_at`.  Applied to a reversed list this is the source's
`for m in reversed(msgs)` scan. -/
def markFirstUser : List Msg → String → String → List Msg
  | [], _, _ => []
  | Msg.user content _ createdAt _ :: rest, status, now =>
      Msg.user content status createdAt (some now) :: rest
  | m :: rest, status, now => m :: markFirstUser rest status now

/-- `storage.py` lines 154-166, `mark_last_user_message_status`: update the
most recent user message's status and `status_updated_at`; a list without
user messages is returned unchanged (the source returns `False` without
saving). -/
def mark_last_user_message_status (msgs : List Msg) (status now : String) : List Msg :=
  (markFirstUser msgs.reverse status now).reverse

/-- Project a message to `(content, status)` when it is a user message. -/
def userView : Msg → Option (String × String)
  | Msg.user content status _ _ => some (content, status)
  | Msg.assistant _ _ => none

/-- `storage.py` lines 202-210, `get_last_user_message`: scan from the end
for the first user message. -/
def get_last_user_message : List Msg → Option (String × String)
  | [] => none
  | m :: rest =>
      match get_last_user_message rest with
      | some r => some r
      | none => userView m

/-- Outcome of the retry endpoint's guard logic. -/
inductive RetryOutcome where
  | notFoundConversation
  | notFoundNoUser
  | badRequestStatus (status : String)
  | badRequestNoContent
  | run (content : String)
deriving DecidableEq

/-- `main.py` lines 237-264, `retry_last_pending` guard: missing
conversation → 404; no user message → 404; status outside
`{pending, failed}` → 400; empty content → 400; otherwise re-run the
council with the original content. -/
def retry_last_pending (conversation : Option (List Msg)) : RetryOutcome :=
  match conversation with
  | none => RetryOutcome.notFoundConversation
  | some msgs =>
      match get_last_user_message msgs with
      | none => RetryOutcome.notFoundNoUser
      | some cs =>
          if cs.2 = "pending" ∨ cs.2 = "failed" then
            (if cs.1 = "" then RetryOutcome.badRequestNoContent
             else RetryOutcome.run cs.1)
          else RetryOutcome.badRequestStatus cs.2

/-- HTTP status code of each retry outcome, as raised by the handler. -/
def httpStatusOf : RetryOutcome → Nat
  | RetryOutcome.notFoundConversation => 404
  | RetryOutcome.notFoundNoUser => 404
  | RetryOutcome.badRequestStatus _ => 400
  | RetryOutcome.badRequestNoContent => 400
  | RetryOutcome.run _ => 200

/-- Specification-side view of "the last user message": the last element
of the user-message subsequence. -/
def lastUserSpec (msgs : List Msg) : Option (String × String) :=
  (msgs.filterMap userView).getLast?

/-- The retry guard re-expressed over `lastUserSpec` (used to state the
amended claim C8 without restating the implementation's scan). -/
def retrySpecOutcome (msgs : List Msg) : RetryOutcome :=
  match lastUserSpec msgs with
  | none => RetryOutcome.notFoundNoUser
  | some cs =>
      if cs.2 = "pending" ∨ cs.2 = "failed" then
        (if cs.1 = "" then RetryOutcome.badRequestNoContent
         else RetryOutcome.run cs.1)
      else RetryOutcome.badRequestStatus cs.2

/-- `storage.py` line 182: a message is removable when it is a user
message with status `pending` or `failed`. -/
def isRemovable : Msg → Bool
  | Msg.user _ status _ _ => status = "pending" || status = "failed"
  | Msg.assistant _ _ => false

/-- Remove the first `n` removable messages (the source removes
`removable_indices`, possibly dropping the last index). -/
def dropFirstRemovables : Nat → List Msg → List Msg
  | 0, msgs => msgs
  | _ + 1, [] => []
  | n + 1, m :: rest =>
      if isRemovable m then dropFirstRemovables n rest
      else m :: dropFirstRemovables (n + 1) rest

/-- `storage.py` lines 169-199, `remove_pending_user_messages`: remove all
pending/failed user messages, keeping the most recent one when
`keepLast`. -/
def remove_pending_user_messages (msgs : List Msg) (keepLast : Bool) : List Msg :=
  let k := (msgs.filter isRemovable).length
  dropFirstRemovables (if keepLast then k - 1 else k) msgs

/-- Number of user messages with status `pending`. -/
def pendingCount (msgs : List Msg) : Nat :=
  (msgs.filter
    (fun m =>
      match m with
      | Msg.user _ status _ _ => status = "pending"
      | Msg.assistant _ _ => false)).length

/-- `main.py` lines 851-981, status effects of the non-streaming send
handler: append the user message as `pending`; on orchestration success
append the assistant message and mark the user message `complete`; on
failure mark it `failed`. -/
def send_message_op (msgs : List Msg) (content now finalResponse : String)
    (councilOk : Bool) : List Msg :=
  let m1 := add_user_message msgs content now
  if councilOk then
    mark_last_user_message_status
      (m1 ++ [Msg.assistant (some finalResponse) none]) "complete" now
  else mark_last_user_message_status m1 "failed" now

/-- `main.py` lines 984-1302, status effects of the streaming send
handler: append the user message as `pending`; on success append the
assistant message — the handler contains NO `complete` mark (lines
1255-1284); on failure mark the user message `failed` (line 1289). -/
def send_message_stream_op (msgs : List Msg) (content now finalResponse : String)
    (councilOk : Bool) : List Msg :=
  let m1 := add_user_message msgs content now
  if councilOk then m1 ++ [Msg.assistant (some finalResponse) none]
  else mark_last_user_message_status m1 "failed" now

/-- `main.py` lines 237-363, status effects of the retry handler: when the
guard admits the request, re-run the council and mark the existing user
message `complete` (success) or `failed`; otherwise reject and leave the
state unchanged. -/
def retry_op (msgs : List Msg) (now finalResponse : String) (councilOk : Bool) :
    List Msg :=
  match retry_last_pending (some msgs) with
  | RetryOutcome.run _ =>
      if councilOk then
        mark_last_user_message_status
          (msgs ++ [Msg.assistant (some finalResponse) none]) "complete" now
      else mark_last_user_message_status msgs "failed" now
  | _ => msgs

/-- `main.py` lines 219-234: the status endpoint marks the last user
message with an arbitrary client-supplied status. -/
def mark_status_op (msgs : List Msg) (status now : String) : List Msg :=
  mark_last_user_message_status msgs status now

/-- `config.py`: `IMMEDIATE_CONTEXT_KEEP = 3`. -/
def IMMEDIATE_CONTEXT_KEEP : Nat := 3

/-- `main.py` lines 875-885: the chronological list of non-empty
`stage3.response` texts of the assistant messages. -/
def priorListOf (msgs : List Msg) : List String :=
  msgs.filterMap
    (fun m =>
      match m with
      | Msg.assistant (some r) _ => if r = "" then none else some r
      | _ => none)

/-- `main.py` lines 875-943, the prior-context computation of the
non-streaming send handler.  `chairSummaryResponse` is the chairman
summarization call (`none` = the call failed or raised); `persistRaises`
models an exception inside the persistence `try` block.  Returns
`(prior_context, messages after the step, did_sync_summary)`.

The source's `try/except/else` at lines 928-943 attaches the `else` to the
`try`, so the `else` body runs exactly when NO exception occurred and
overwrites `prior_context` (set at line 934) with the join of the
remaining finals; and when the summary text is falsy the whole
`if summary_text:` block is skipped, leaving `prior_context` at its
initial `None`.  The embedding reproduces both behaviours literally. -/
def send_message_prior_context (msgs : List Msg) (chairSummaryResponse : Option String)
    (persistRaises : Bool) : Option String × List Msg × Bool :=
  let prior_list := priorListOf msgs
  if prior_list.length = 0 then (none, msgs, false)
  else if prior_list.length ≤ IMMEDIATE_CONTEXT_KEEP then
    (some (joinNN (prior_list.drop (prior_list.length - IMMEDIATE_CONTEXT_KEEP))),
     msgs, false)
  else
    let to_summarize := prior_list.take (prior_list.length - IMMEDIATE_CONTEXT_KEEP)
    let remaining := prior_list.drop (prior_list.length - IMMEDIATE_CONTEXT_KEEP)
    match chairSummaryResponse.map stripWS with
    | some summary_text =>
        if summary_text ≠ "" then
          if persistRaises then (some (joinNN remaining), msgs, false)
          else
            let afterTry :=
              if msgs.isEmpty then (some (joinNN remaining), msgs, false)
              else
                (some (summary_text ++ "\n\n" ++ joinNN remaining),
                 msgs ++ [Msg.assistant (some summary_text) (some to_summarize.length)],
                 true)
            (some (joinNN remaining), afterTry.2.1, afterTry.2.2)
        else (none, msgs, false)
    | none => (none, msgs, false)

/-- The prior-context computation as claim C5 describes it: on successful
summarization the summary message is persisted and the summary text is
prepended to the joined recent finals; on failure the joined recent finals
alone are used. -/
def claimC5_prior_context (msgs : List Msg) (chairSummaryResponse : Option String) :
    Option String × List Msg × Bool :=
  let finals := priorListOf msgs
  if finals.length = 0 then (none, msgs, false)
  else if finals.length ≤ IMMEDIATE_CONTEXT_KEEP then
    (some (joinNN (finals.drop (finals.length - IMMEDIATE_CONTEXT_KEEP))), msgs, false)
  else
    let older := finals.take (finals.length - IMMEDIATE_CONTEXT_KEEP)
    let recent := finals.drop (finals.length - IMMEDIATE_CONTEXT_KEEP)
    match chairSummaryResponse.map stripWS with
    | some summary_text =>
        if summary_text ≠ "" then
          (some (summary_text ++ "\n\n" ++ joinNN recent),
           msgs ++ [Msg.assistant (some summary_text) (some older.length)], true)
        else (some (joinNN recent), msgs, false)
    | none => (some (joinNN recent), msgs, false)

/-- A conversation with four completed assistant finals, the smallest
state that triggers the summarization branch (`4 > IMMEDIATE_CONTEXT_KEEP`). -/
def c5ExampleMessages : List Msg :=
  [Msg.assistant (some "f1") none, Msg.assistant (some "f2") none,
   Msg.assistant (some "f3") none, Msg.assistant (some "f4") none]

/-! ### Helper lemmas -/

/-- Every element of a stable insertion is the inserted element or an
element of the original list. -/
theorem mem_insertStable {α : Type} (le : α → α → Bool) (x : α) (l : List α) (z : α)
    (hz : z ∈ insertStable le x l) : z = x ∨ z ∈ l := by
  induction l with
  | nil =>
      simp only [insertStable, List.mem_singleton] at hz
      exact Or.inl hz
  | cons y ys ih =>
      simp only [insertStable] at hz
      split at hz
      · rcases List.mem_cons.mp hz with h1 | h2
        · exact Or.inr (List.mem_cons.mpr (Or.inl h1))
        · rcases ih h2 with h3 | h4
          · exact Or.inl h3
          · exact Or.inr (List.mem_cons.mpr (Or.inr h4))
      · rcases List.mem_cons.mp hz with h1 | h2
        · exact Or.inl h1
        · exact Or.inr h2

/-- Stable insertion preserves sortedness for a total transitive boolean
preorder. -/
theorem pairwise_insertStable {α : Type} (le : α → α → Bool)
    (htot : ∀ a b, le a b = true ∨ le b a = true)
    (htrans : ∀ a b c, le a b = true → le b c = true → le a c = true)
    (x : α) (l : List α) (hl : List.Pairwise (fun a b => le a b = true) l) :
    List.Pairwise (fun a b => le a b = true) (insertStable le x l) := by
  induction l with
  | nil => simp [insertStable]
  | cons y ys ih =>
      rcases List.pairwise_cons.mp hl with ⟨hy, hys⟩
      simp only [insertStable]
      split
      case isTrue h =>
        refine List.pairwise_cons.mpr ⟨?_, ih hys⟩
        intro z hz
        rcases mem_insertStable le x ys z hz with rfl | hz2
        · exact h
        · exact hy z hz2
      case isFalse h =>
        have hxy : le x y = true := by
          rcases htot x y with h1 | h1
          · exact h1
          · exact absurd h1 h
        refine List.pairwise_cons.mpr ⟨?_, hl⟩
        intro z hz
        rcases List.mem_cons.mp hz with rfl | hz2
        · exact hxy
        · exact htrans x y z hxy (hy z hz2)

/-- The stable insertion sort produces a sorted list. -/
theorem pairwise_stableSortBy {α : Type} (le : α → α → Bool)
    (htot : ∀ a b, le a b = true ∨ le b a = true)
    (htrans : ∀ a b c, le a b = true → le b c = true → le a c = true)
    (l : List α) :
    List.Pairwise (fun a b => le a b = true) (stableSortBy le l) := by
  suffices h : ∀ (ls acc : List α), List.Pairwise (fun a b => le a b = true) acc →
      List.Pairwise (fun a b => le a b = true)
        (ls.foldl (fun acc x => insertStable le x acc) acc) by
    exact h l [] List.Pairwise.nil
  intro ls
  induction ls with
  | nil => intro acc hacc; simpa using hacc
  | cons x xs ih =>
      intro acc hacc
      exact ih _ (pairwise_insertStable le htot htrans x acc hacc)

/-- Reading a model's positions after one `append` of `p` under key `m`. -/
theorem assocFind_addPos (mps : List (String × List Nat)) (m : String) (p : Nat)
    (m2 : String) :
    assocFind (addPos mps m p) m2 =
      if m = m2 then assocFind mps m2 ++ [p] else assocFind mps m2 := by
  induction mps with
  | nil =>
      by_cases h : m = m2 <;> simp [addPos, assocFind, h]
  | cons kps rest ih =>
      by_cases h1 : kps.1 = m
      · by_cases h2 : m = m2
        · subst h2
          simp [addPos, assocFind, h1]
        · have h3 : ¬ kps.1 = m2 := by
            intro hc
            exact h2 (h1 ▸ hc)
          simp [addPos, assocFind, h1, h2, h3]
      · by_cases h3 : kps.1 = m2
        · have h2 : ¬ m = m2 := by
            intro hc
            exact h1 (by rw [h3, hc])
          have h4 : ¬ m2 = m := fun hc => h2 hc.symm
          simp [addPos, assocFind, h1, h2, h3, h4]
        · simp [addPos, assocFind, h1, h3, ih]

/-- Folding one rater's labelled positions into the accumulator appends
exactly the positions of the labels mapped to `m`. -/
theorem assocFind_foldl_positions (label_to_model : List (String × String))
    (pairs : List (Nat × String)) (mps : List (String × List Nat)) (m : String) :
    assocFind
      (pairs.foldl
        (fun mps2 pl =>
          match assocLookup label_to_model pl.2 with
          | some model_name => addPos mps2 model_name pl.1
          | none => mps2)
        mps) m =
      assocFind mps m ++
        pairs.filterMap
          (fun pl =>
            match assocLookup label_to_model pl.2 with
            | some m2 => if m2 = m then some pl.1 else none
            | none => none) := by
  induction pairs generalizing mps with
  | nil => simp
  | cons pl rest ih =>
      simp only [List.foldl_cons, List.filterMap_cons]
      cases hl : assocLookup label_to_model pl.2 with
      | none => simp [ih]
      | some mn =>
          by_cases hm : mn = m
          · subst hm
            simp only [if_pos rfl]
            rw [ih, assocFind_addPos, if_pos rfl, List.append_assoc]
            rfl
          · simp only [if_neg hm]
            rw [ih, assocFind_addPos, if_neg hm]

/-- Folding a list of raters appends each rater's contribution in order. -/
theorem assocFind_foldl_raters (label_to_model : List (String × String))
    (raters : List Stage2Result) (mps : List (String × List Nat)) (m : String) :
    assocFind
      (raters.foldl
        (fun mps r =>
          (List.enumFrom 1 (parse_ranking_from_text r.ranking)).foldl
            (fun mps2 pl =>
              match assocLookup label_to_model pl.2 with
              | some model_name => addPos mps2 model_name pl.1
              | none => mps2)
            mps)
        mps) m =
      assocFind mps m ++
        (raters.map (fun r => raterContrib label_to_model r.ranking m)).flatten := by
  induction raters generalizing mps with
  | nil => simp
  | cons r rest ih =>
      simp only [List.foldl_cons, List.map_cons, List.flatten_cons]
      rw [ih, assocFind_foldl_positions, List.append_assoc]
      rfl

/-- A successful `Response [A-Z]` match returns an uppercase letter. -/
theorem matchRespLen_isUpper (t : List Char) (c : Char)
    (h : matchRespLen t = some c) : isUpperAZ c = true := by
  unfold matchRespLen at h
  split at h
  · split at h
    · split at h
      · injection h with h2
        subst h2
        assumption
      · exact absurd h (by simp)
    · exact absurd h (by simp)
  · exact absurd h (by simp)

/-- A successful numbered-list match returns an uppercase letter. -/
theorem matchNumberedLen_isUpper (t : List Char) (cn : Char × Nat)
    (h : matchNumberedLen t = some cn) : isUpperAZ cn.1 = true := by
  simp only [matchNumberedLen] at h
  split at h
  · exact absurd h (by simp)
  · split at h
    · split at h
      case h_1 c heq =>
        injection h with h2
        subst h2
        exact matchRespLen_isUpper _ _ heq
      case h_2 => exact absurd h (by simp)
    · exact absurd h (by simp)

/-- The canonical label string passes the shape test. -/
theorem isRespLabel_mkRespLabel (c : Char) (h : isUpperAZ c = true) :
    isRespLabel (mkRespLabel c) = true := by
  unfold isRespLabel mkRespLabel
  have htl : (String.mk (respTok ++ [c])).toList = respTok ++ [c] := rfl
  rw [htl]
  have h9 : respTok.length = 9 := rfl
  rw [← h9, List.take_left, List.drop_left]
  simp [h]

/-- Every string produced by the bare-pattern scanner has the label shape. -/
theorem all_isRespLabel_findallRespGo (fuel : Nat) (t : List Char) :
    (findallRespGo fuel t).all isRespLabel = true := by
  induction fuel generalizing t with
  | zero => rfl
  | succ n ih =>
      cases t with
      | nil => rfl
      | cons a rest =>
          simp only [findallRespGo]
          cases hm : matchRespLen (a :: rest) with
          | none => exact ih rest
          | some c =>
              simp only [List.all_cons, Bool.and_eq_true]
              exact ⟨isRespLabel_mkRespLabel c (matchRespLen_isUpper _ _ hm), ih _⟩

/-- Every string produced by the numbered-pattern scanner has the label
shape. -/
theorem all_isRespLabel_findallNumberedGo (fuel : Nat) (t : List Char) :
    (findallNumberedGo fuel t).all isRespLabel = true := by
  induction fuel generalizing t with
  | zero => rfl
  | succ n ih =>
      cases t with
      | nil => rfl
      | cons a rest =>
          simp only [findallNumberedGo]
          cases hm : matchNumberedLen (a :: rest) with
          | none => exact ih rest
          | some cn =>
              simp only [List.all_cons, Bool.and_eq_true]
              exact ⟨isRespLabel_mkRespLabel cn.1 (matchNumberedLen_isUpper _ _ hm), ih _⟩

/-- The split never produces an empty part list. -/
theorem pySplitGo_ne_nil (sep : List Char) (fuel : Nat) (t : List Char) :
    pySplitGo sep fuel t ≠ [] := by
  cases fuel with
  | zero => simp [pySplitGo]
  | succ n =>
      simp only [pySplitGo]
      cases findOcc sep t <;> simp

/-- With positive fuel, the first part of the split is the text up to the
first occurrence of the separator (or the whole text). -/
theorem pySplitGo_head (sep : List Char) (fuel : Nat) (t : List Char) :
    (pySplitGo sep (fuel + 1) t).head? =
      some
        (match findOcc sep t with
         | none => t
         | some j => t.take j) := by
  simp only [pySplitGo]
  cases findOcc sep t <;> simp

/-- An occurrence index can only be found in a nonempty text. -/
theorem findOcc_some_ne_nil (pat t : List Char) (i : Nat)
    (h : findOcc pat t = some i) : t ≠ [] := by
  intro hc
  subst hc
  simp [findOcc] at h

/-- The model's recursive end-scan for the last user message agrees with
the head of the reversed filtered sequence. -/
theorem get_last_user_message_eq_head_reverse (msgs : List Msg) :
    get_last_user_message msgs = (msgs.reverse.filterMap userView).head? := by
  induction msgs with
  | nil => rfl
  | cons m rest ih =>
      simp only [get_last_user_message, ih, List.reverse_cons, List.filterMap_append,
        List.head?_append]
      have hm : ([m].filterMap userView).head? = userView m := by
        cases hv : userView m <;> simp [List.filterMap, hv]
      rw [hm]
      cases (rest.reverse.filterMap userView).head? <;> rfl

/-- The reverse scan of the source equals the specification-side
"last element of the user subsequence". -/
theorem get_last_user_message_eq_lastUserSpec (msgs : List Msg) :
    get_last_user_message msgs = lastUserSpec msgs := by
  rw [get_last_user_message_eq_head_reverse, lastUserSpec, ← List.head?_reverse,
    List.filterMap_reverse]

/-- Re-marking the first user message only rewrites its status and stamp. -/
theorem markFirstUser_twice (l : List Msg) (status t1 t2 : String) :
    markFirstUser (markFirstUser l status t1) status t2 = markFirstUser l status t2 := by
  induction l with
  | nil => rfl
  | cons m rest ih =>
      cases m with
      | user content st ca su => rfl
      | assistant r sc => simp [markFirstUser, ih]

/-! ### Claim theorems -/

/-- C1 (counterexample): with two raters that rank the two labels in
opposite orders, both models end with average rank 1.50 and two rankings,
and the aggregator returns them in first-contribution order
["zzz", "aaa"], which violates the claimed lexicographic tie-break
(it would demand "aaa" before "zzz"). -/
theorem C1_counterexample :
    calculate_aggregate_rankings
        [⟨"r1", "FINAL RANKING:\n1. Response A\n2. Response B", []⟩,
         ⟨"r2", "FINAL RANKING:\n1. Response B\n2. Response A", []⟩]
        [("Response A", "zzz"), ("Response B", "aaa")] =
      [⟨"zzz", 150, 2⟩, ⟨"aaa", 150, 2⟩] ∧
    ¬ claimKeyLe ⟨"zzz", 150, 2⟩ ⟨"aaa", 150, 2⟩ := by
  constructor
  · rfl
  · unfold claimKeyLe
    decide

/-- C1 (amended): the aggregator output is sorted by average rank
ascending; the source's single-key stable sort resolves ties by the order
in which models first received a position, not by rankings count or model
ID. -/
theorem C1_sorted_by_average_rank (stage2_results : List Stage2Result)
    (label_to_model : List (String × String)) :
    List.Pairwise (fun a b : AggregateEntry => a.average_rank_x100 ≤ b.average_rank_x100)
      (calculate_aggregate_rankings stage2_results label_to_model) := by
  unfold calculate_aggregate_rankings
  refine List.Pairwise.imp ?_ (pairwise_stableSortBy aggLe ?_ ?_ _)
  · intro a b hab
    simp only [aggLe, decide_eq_true_eq] at hab
    exact hab
  · intro a b
    simp only [aggLe, decide_eq_true_eq]
    exact Nat.le_total _ _
  · intro a b c hab hbc
    simp only [aggLe, decide_eq_true_eq] at hab hbc ⊢
    exact Nat.le_trans hab hbc

/-- C2 (counterexample): with two occurrences of the marker, the source
parses the segment after the FIRST occurrence (yielding "Response A"),
whereas the claim demands the substring after the LAST occurrence
(yielding "Response B"). -/
theorem C2_counterexample :
    parse_ranking_from_text
        "FINAL RANKING:\n1. Response A\nFINAL RANKING:\n1. Response B" =
      ["Response A"] ∧
    parse_ranking_claimC2
        "FINAL RANKING:\n1. Response A\nFINAL RANKING:\n1. Response B" =
      ["Response B"] ∧
    (["Response A"] : List String) ≠ ["Response B"] := by
  refine ⟨rfl, rfl, by decide⟩

/-- C2 (amended): for every input, the parser works on the segment
strictly between the FIRST occurrence of `FINAL RANKING:` and its next
occurrence (or the end of the text) — the meaning of Python's
`split(...)[1]` — taking the numbered-list matches if any, else all bare
`Response [A-Z]` matches of that segment; without the marker it scans the
whole text. -/
theorem C2_parse_after_first_marker (s : String) :
    parse_ranking_from_text s = parse_ranking_amendedC2 s := by
  simp only [parse_ranking_from_text, parse_ranking_amendedC2]
  cases h : findOcc markerL s.toList with
  | none => simp [h]
  | some i =>
      have hne : s.toList ≠ [] := findOcc_some_ne_nil markerL s.toList i h
      obtain ⟨m0, hm0⟩ : ∃ m0, s.toList.length = m0 + 1 := by
        cases hx : s.toList with
        | nil => exact absurd hx hne
        | cons a r => exact ⟨r.length, List.length_cons a r⟩
      have h1 : pySplit markerL s.toList =
          s.toList.take i ::
            pySplitGo markerL s.toList.length (s.toList.drop (i + markerL.length)) := by
        simp only [pySplit, pySplitGo, h]
      obtain ⟨s0, tl, hs0⟩ :=
        List.exists_cons_of_ne_nil
          (pySplitGo_ne_nil markerL s.toList.length (s.toList.drop (i + markerL.length)))
      have h2 : s0 =
          (match findOcc markerL (s.toList.drop (i + markerL.length)) with
           | none => s.toList.drop (i + markerL.length)
           | some j => (s.toList.drop (i + markerL.length)).take j) := by
        have h3 := pySplitGo_head markerL m0 (s.toList.drop (i + markerL.length))
        rw [← hm0, hs0] at h3
        simpa using h3
      simp only [h, Option.isSome_some, if_true, h1, hs0]
      rw [h2]
      cases hocc : findOcc markerL (s.toList.drop (i + markerL.length)) <;> simp [hocc]

/-- C3 (counterexample): a rater that lists `Response A` twice contributes
BOTH positions 1 and 2 to the mapped model, so the aggregate row is
(average 1.50, count 2) instead of the claimed (average 1.00, count 1). -/
theorem C3_counterexample :
    calculate_aggregate_rankings
        [⟨"r1", "FINAL RANKING:\n1. Response A\n2. Response A", []⟩]
        [("Response A", "m")] =
      [⟨"m", 150, 2⟩] ∧
    (⟨"m", 150, 2⟩ : AggregateEntry) ≠ ⟨"m", 100, 1⟩ := by
  refine ⟨rfl, by decide⟩

/-- C3 (amended): the positions collected for a model are exactly the
1-based positions of EVERY occurrence of a label that the LabelMap sends
to it, rater by rater in order; labels outside the LabelMap contribute
nothing.  Repetition is not deduplicated. -/
theorem C3_every_occurrence_counts (stage2_results : List Stage2Result)
    (label_to_model : List (String × String)) (m : String) :
    assocFind (model_positions stage2_results label_to_model) m =
      (stage2_results.map (fun r => raterContrib label_to_model r.ranking m)).flatten := by
  unfold model_positions
  rw [assocFind_foldl_raters]
  rfl

/-- C4 (counterexample): on an empty stage-1 result the orchestrator's
error response text is "All models failed to respond. Please try again.",
not the claimed "All models failed to respond.". -/
theorem C4_counterexample :
    (run_full_council [("m", none)] [] none "chair").2.2.1.response =
      "All models failed to respond. Please try again." ∧
    ("All models failed to respond. Please try again." : String) ≠
      "All models failed to respond." := by
  refine ⟨rfl, by decide⟩

/-- C4 (amended): if stage 1 yields zero successful responses, the
orchestrator returns stage1 = [] and stage2 = [] with the assistant
response {model: "error", response: "All models failed to respond. Please
try again."} and empty metadata, independently of the stage-2 and stage-3
oracles (i.e. it never invokes them). -/
theorem C4_all_failed_short_circuit
    (stage1Responses stage2Responses : List (String × Option String))
    (stage3Response : Option String) (chairman : String)
    (h : stage1_collect_responses stage1Responses = []) :
    run_full_council stage1Responses stage2Responses stage3Response chairman =
      ([], [], ⟨"error", "All models failed to respond. Please try again."⟩, none) := by
  unfold run_full_council
  rw [h]
  rfl

/-- C4 (witness): the amended theorem applied at a one-model stage-1
failure. -/
theorem C4_witness :
    stage1_collect_responses [("m", none)] = [] ∧
      run_full_council [("m", none)] [] none "chair" =
        ([], [], ⟨"error", "All models failed to respond. Please try again."⟩, none) :=
  ⟨rfl, C4_all_failed_short_circuit [("m", none)] [] none "chair" rfl⟩

/-- C5 (code evaluation at the failing input): with four prior finals and
IMMEDIATE_CONTEXT_KEEP = 3, the handler persists the summary message with
summarized_count = 1 when the chairman summarization succeeds, but — the
`else` of the `try` statement at main.py lines 940-943 runs on SUCCESS —
prior_context is overwritten to the join of the recent three finals,
omitting the summary text; and when summarization fails prior_context
stays None instead of falling back to the joined recent finals.  The
claimed behaviour (second conjunct pair) differs in both cases. -/
theorem C5_prior_context_bug :
    send_message_prior_context c5ExampleMessages (some "S") false =
        (some "f2\n\nf3\n\nf4",
         c5ExampleMessages ++ [Msg.assistant (some "S") (some 1)], true) ∧
      send_message_prior_context c5ExampleMessages none false =
        (none, c5ExampleMessages, false) ∧
      claimC5_prior_context c5ExampleMessages (some "S") =
        (some "S\n\nf2\n\nf3\n\nf4",
         c5ExampleMessages ++ [Msg.assistant (some "S") (some 1)], true) ∧
      claimC5_prior_context c5ExampleMessages none =
        (some "f2\n\nf3\n\nf4", c5ExampleMessages, false) := by
  refine ⟨rfl, rfl, rfl, rfl⟩

/-- C6: for at most 26 stage-1 results the label map has exactly one entry
per result, its keys are the alphabet-prefix labels "Response A",
"Response B", … of that length (pairwise distinct), and the i-th key maps
to the i-th stage-1 model (so with distinct models it is a bijection in
insertion order). -/
theorem C6_stage2_label_map (stage1_results : List PerModelResponse)
    (h : stage1_results.length ≤ 26) :
    (stage2_label_to_model stage1_results).length = stage1_results.length ∧
      (stage2_label_to_model stage1_results).map Prod.fst =
        alphabetLabels.take stage1_results.length ∧
      (stage2_label_to_model stage1_results).map Prod.snd =
        stage1_results.map PerModelResponse.model ∧
      ((stage2_label_to_model stage1_results).map Prod.fst).Nodup := by
  have hlen : (List.range stage1_results.length).length = stage1_results.length :=
    List.length_range _
  have hkeys : (stage2_label_to_model stage1_results).map Prod.fst =
      (List.range stage1_results.length).map
        (fun i => "Response " ++ (Char.ofNat (65 + i)).toString) := by
    unfold stage2_label_to_model
    rw [List.map_map]
    rw [show (Prod.fst ∘ fun ir : Nat × PerModelResponse =>
          ("Response " ++ (Char.ofNat (65 + ir.1)).toString, ir.2.model)) =
        (fun i => "Response " ++ (Char.ofNat (65 + i)).toString) ∘ Prod.fst from rfl]
    rw [← List.map_map, List.map_fst_zip _ _ (le_of_eq hlen)]
  have halpha : ∀ k, k ≤ 26 → alphabetLabels.take k =
      (List.range k).map (fun i => "Response " ++ (Char.ofNat (65 + i)).toString) := by
    decide
  have halphanodup : alphabetLabels.Nodup := by decide
  refine ⟨?_, ?_, ?_, ?_⟩
  · unfold stage2_label_to_model
    rw [List.length_map, List.length_zip, hlen, min_self]
  · rw [hkeys, halpha _ h]
  · unfold stage2_label_to_model
    rw [List.map_map]
    rw [show (Prod.snd ∘ fun ir : Nat × PerModelResponse =>
          ("Response " ++ (Char.ofNat (65 + ir.1)).toString, ir.2.model)) =
        PerModelResponse.model ∘ Prod.snd from rfl]
    rw [← List.map_map, List.map_snd_zip _ _ (le_of_eq hlen.symm)]
  · rw [hkeys, ← halpha _ h]
    exact halphanodup.sublist (List.take_sublist _ _)

/-- C6 (witness): the amended theorem applied to a two-model stage 1. -/
theorem C6_witness :
    ([⟨"m1", "r1"⟩, ⟨"m2", "r2"⟩] : List PerModelResponse).length ≤ 26 ∧
      ((stage2_label_to_model [⟨"m1", "r1"⟩, ⟨"m2", "r2"⟩]).length =
          ([⟨"m1", "r1"⟩, ⟨"m2", "r2"⟩] : List PerModelResponse).length ∧
        (stage2_label_to_model [⟨"m1", "r1"⟩, ⟨"m2", "r2"⟩]).map Prod.fst =
          alphabetLabels.take
            ([⟨"m1", "r1"⟩, ⟨"m2", "r2"⟩] : List PerModelResponse).length ∧
        (stage2_label_to_model [⟨"m1", "r1"⟩, ⟨"m2", "r2"⟩]).map Prod.snd =
          ([⟨"m1", "r1"⟩, ⟨"m2", "r2"⟩] : List PerModelResponse).map
            PerModelResponse.model ∧
        ((stage2_label_to_model [⟨"m1", "r1"⟩, ⟨"m2", "r2"⟩]).map Prod.fst).Nodup) :=
  ⟨by decide, C6_stage2_label_map [⟨"m1", "r1"⟩, ⟨"m2", "r2"⟩] (by decide)⟩

/-- C7 (code evaluation at the failing input): two consecutive successful
streaming sends leave BOTH user messages `pending` (the streaming handler
never marks `complete` on success, unlike the non-streaming handler whose
trace ends with zero pending messages). -/
theorem C7_two_pending_after_stream_sends :
    pendingCount
        (send_message_stream_op
          (send_message_stream_op [] "q1" "t1" "r1" true) "q2" "t2" "r2" true) = 2 ∧
      pendingCount
        (send_message_op
          (send_message_op [] "q1" "t1" "r1" true) "q2" "t2" "r2" true) = 0 := by
  refine ⟨rfl, rfl⟩

/-- C8 (counterexample): on a conversation without any user message the
retry endpoint rejects with 404 not_found, not with the claimed
bad_request (400). -/
theorem C8_counterexample :
    retry_last_pending (some []) = RetryOutcome.notFoundNoUser ∧
      httpStatusOf (retry_last_pending (some [])) = 404 ∧ (404 : Nat) ≠ 400 := by
  refine ⟨rfl, rfl, by decide⟩

/-- C8 (amended): the retry endpoint re-runs orchestration with the
original content of the last user message whenever that message's status
is pending or failed and its content is non-empty; it rejects with
bad_request when the status is anything else (such as complete) or the
content is empty, and with not_found when no user message (or no
conversation) exists. -/
theorem C8_retry_guard (conversation : Option (List Msg)) :
    retry_last_pending conversation =
      (match conversation with
       | none => RetryOutcome.notFoundConversation
       | some msgs => retrySpecOutcome msgs) := by
  cases conversation with
  | none => rfl
  | some msgs =>
      simp only [retry_last_pending, retrySpecOutcome,
        get_last_user_message_eq_lastUserSpec]

/-- C9 (counterexample): marking the same single-message conversation
`complete` twice with distinct call times changes the stored state — the
second call rewrites `status_updated_at`. -/
theorem C9_counterexample :
    mark_last_user_message_status
        (mark_last_user_message_status
          [Msg.user "hi" "pending" "t0" none] "complete" "t1")
        "complete" "t2" ≠
      mark_last_user_message_status
        [Msg.user "hi" "pending" "t0" none] "complete" "t1" := by
  decide

/-- C9 (amended): a repeated status mark is absorbed up to the timestamp:
marking twice equals marking once at the second call's time, so the second
call changes nothing except refreshing the last user message's
`status_updated_at` (and the stored state is unchanged exactly when the
two call times coincide). -/
theorem C9_mark_complete_twice (msgs : List Msg) (status t1 t2 : String) :
    mark_last_user_message_status
        (mark_last_user_message_status msgs status t1) status t2 =
      mark_last_user_message_status msgs status t2 ∧
    mark_last_user_message_status
        (mark_last_user_message_status msgs status t1) status t1 =
      mark_last_user_message_status msgs status t1 := by
  constructor
  · unfold mark_last_user_message_status
    rw [List.reverse_reverse, markFirstUser_twice]
  · unfold mark_last_user_message_status
    rw [List.reverse_reverse, markFirstUser_twice]

/-- C10: for every input string the parser returns (totally — every Lean
function is total and so is the embedded scan) a list whose members are
all exactly "Response " followed by one uppercase letter A-Z. -/
theorem C10_output_shape (s : String) :
    (parse_ranking_from_text s).all isRespLabel = true := by
  simp only [parse_ranking_from_text]
  split
  · split
    · split
      · exact all_isRespLabel_findallRespGo _ _
      · exact all_isRespLabel_findallNumberedGo _ _
    · exact all_isRespLabel_findallRespGo _ _
  · exact all_isRespLabel_findallRespGo _ _
